import Mathlib

/-
Verification of the item-store web application in `src/web-app/app.py`
(FastAPI HTTP methods implementation).

The embedding is shallow: each handler of `app.py` becomes a Lean function
from its validated arguments and the current store to a response and the new
store.  The global dict `items: dict[int, Item]` is embedded as an
association list `List (Int × Item)`; dict assignment replaces an existing
binding in place, deletion removes it, and `max(items.keys(), default=0)`
becomes `Store.maxKey`.  Decimal numbers (`float` fields, used only for
storage and equality here) are embedded as `Rat`.

Pydantic detail that matters: `update_item` uses
`stored.copy(update=item.dict(exclude_unset=True))`.  `exclude_unset=True`
keeps a field the client sent explicitly — including one sent as JSON
`null` — and drops a field the client omitted, so an `ItemUpdate` field is
embedded as `Option (Option τ)`: `none` = omitted, `some none` = explicit
null, `some (some v)` = value.  Moreover `copy(update=...)` bypasses
validation, so the stored object's required fields can end up `None`;
therefore the stored `Item` embeds all four fields as `Option`, and the
body-validation requirement (`name` and `price` present) is the predicate
`Item.valid`.
-/

namespace WebApp

/-- The pydantic `Item` model (app.py lines 8-12).  `name` and `price` are
required by validation, but `copy(update=...)` can drive them to `None`, so
all four fields are `Option` here; `Item.valid` states the schema. -/
structure Item where
  name : Option String
  description : Option String
  price : Option Rat
  tax : Option Rat
deriving DecidableEq, Repr

/-- An item as the request-body validator accepts it: `name : str` and
`price : float` present (`description` and `tax` optional). -/
def Item.valid (i : Item) : Prop := i.name.isSome ∧ i.price.isSome

instance (i : Item) : Decidable i.valid :=
  inferInstanceAs (Decidable (_ ∧ _))

/-- The pydantic `ItemUpdate` model (app.py lines 40-44) together with the
presence information `__fields_set__` that `dict(exclude_unset=True)`
consults: outer `none` = field omitted from the body, `some none` = field
explicitly `null`, `some (some v)` = field set to `v`. -/
structure ItemUpdate where
  name : Option (Option String)
  description : Option (Option String)
  price : Option (Option Rat)
  tax : Option (Option Rat)
deriving DecidableEq, Repr

/-- The in-memory database `items: dict[int, Item]` (app.py line 15). -/
abbrev Store := List (Int × Item)

/-- `items.get(item_id)` (also the basis of `item_id in items`). -/
def Store.lookup (s : Store) (k : Int) : Option Item :=
  match s with
  | [] => none
  | (j, v) :: rest => if j = k then some v else Store.lookup rest k

/-- `item_id in items`. -/
def Store.contains (s : Store) (k : Int) : Bool :=
  (Store.lookup s k).isSome

/-- Dict assignment `items[k] = v`: replace the binding if the key is
present, otherwise append it. -/
def Store.insert (s : Store) (k : Int) (v : Item) : Store :=
  match s with
  | [] => [(k, v)]
  | (j, w) :: rest =>
      if j = k then (k, v) :: rest else (j, w) :: Store.insert rest k v

/-- `del items[k]`. -/
def Store.erase (s : Store) (k : Int) : Store :=
  match s with
  | [] => []
  | (j, w) :: rest => if j = k then rest else (j, w) :: Store.erase rest k

/-- `items.keys()`. -/
def Store.keys (s : Store) : List Int :=
  List.map Prod.fst s

/-- `max(items.keys(), default=0)` (app.py line 29): the genuine maximum of
the keys when the dict is nonempty, `0` when it is empty. -/
def Store.maxKey : Store → Int
  | [] => 0
  | (k, _) :: rest => if List.isEmpty rest then k else max k (Store.maxKey rest)

/-- A handler outcome: the HTTP status and body shape the dispatcher
renders.  `itemBody` is `{"item_id": id, **item.dict()}` (POST/PUT/PATCH
success), `getBody` is GET's `{"item_id", "item", "q"}`, `empty` is a bare
`Response(status_code=...)`, `loginOk` is `{"status": "success"}` and
`unauthorized` carries the 401 plain-text content. -/
inductive Resp where
  | itemBody (status : Nat) (item_id : Int) (item : Item)
  | getBody (item_id : Int) (item : Option Item) (q : Option String)
  | empty (status : Nat)
  | loginOk
  | unauthorized (content : String)
deriving DecidableEq, Repr

/-- The HTTP status code of a response. -/
def Resp.status : Resp → Nat
  | .itemBody st _ _ => st
  | .getBody _ _ _ => 200
  | .empty st => st
  | .loginOk => 200
  | .unauthorized _ => 401

/-- `read_item` (GET /items/{item_id}, app.py lines 18-24). -/
def read_item (item_id : Int) (q : Option String) (s : Store) : Resp × Store :=
  (.getBody item_id (Store.lookup s item_id) q, s)

/-- The body of `create_item` (app.py lines 29-30): assign
`new_id = max(items.keys(), default=0) + 1` and insert; returns the new id
and the new store. -/
def create_core (item : Item) (s : Store) : Int × Store :=
  (Store.maxKey s + 1, Store.insert s (Store.maxKey s + 1) item)

/-- `create_item` (POST /items/, app.py lines 27-31), status 201. -/
def create_item (item : Item) (s : Store) : Resp × Store :=
  (.itemBody 201 (create_core item s).1 item, (create_core item s).2)

/-- `replace_item` (PUT /items/{item_id}, app.py lines 34-37), status 200. -/
def replace_item (item_id : Int) (item : Item) (s : Store) : Resp × Store :=
  (.itemBody 200 item_id item, Store.insert s item_id item)

/-- `stored.copy(update=item.dict(exclude_unset=True))` (app.py line 51):
each field sent by the client (even as null) overwrites, each omitted field
keeps the stored value; no validation is re-run. -/
def Item.copyUpdate (stored : Item) (u : ItemUpdate) : Item :=
  { name := u.name.getD stored.name
    description := u.description.getD stored.description
    price := u.price.getD stored.price
    tax := u.tax.getD stored.tax }

/-- `update_item` (PATCH /items/{item_id}, app.py lines 46-53): 404 when the
id is absent, otherwise merge, store and return with status 200. -/
def update_item (item_id : Int) (u : ItemUpdate) (s : Store) : Resp × Store :=
  match Store.lookup s item_id with
  | none => (.empty 404, s)
  | some stored =>
      (.itemBody 200 item_id (Item.copyUpdate stored u),
       Store.insert s item_id (Item.copyUpdate stored u))

/-- `delete_item` (DELETE /items/{item_id}, app.py lines 56-61). -/
def delete_item (item_id : Int) (s : Store) : Resp × Store :=
  if Store.contains s item_id then (.empty 204, Store.erase s item_id)
  else (.empty 404, s)

/-- `head_item` (HEAD /items/{item_id}, app.py lines 64-69): 200 (with the
`X-Item-Exists` header) when present, 404 otherwise; never writes. -/
def head_item (item_id : Int) (s : Store) : Resp × Store :=
  if Store.contains s item_id then (.empty 200, s)
  else (.empty 404, s)

/-- `login` (POST /login/, app.py lines 77-82).  The handler touches no
store state; it is given the store here only so that "never reads or
mutates the store" is a provable statement. -/
def login (username password : String) (s : Store) : Resp × Store :=
  (if username = "admin" ∧ password = "secret" then .loginOk
   else .unauthorized "Invalid credentials", s)

/-- The ids returned by a sequence of consecutive `create_item` calls with
no other operation interleaved. -/
def createSeq : List Item → Store → List Int × Store
  | [], s => ([], s)
  | it :: rest, s =>
      ((create_core it s).1 :: (createSeq rest (create_core it s).2).1,
       (createSeq rest (create_core it s).2).2)

/-- The item of the scenario body `{"name": "Pen", "price": 1.5}`:
description and tax take their `None` defaults. -/
def penItem : Item := ⟨some "Pen", none, some 1.5, none⟩

theorem Store.keys_nil : Store.keys [] = [] := rfl

theorem Store.keys_cons (p : Int × Item) (rest : List (Int × Item)) :
    Store.keys (p :: rest) = p.1 :: Store.keys rest := rfl

theorem Store.maxKey_single (j : Int) (w : Item) : Store.maxKey [(j, w)] = j := rfl

theorem Store.maxKey_cons_cons (j : Int) (w : Item) (q : Int × Item)
    (qs : List (Int × Item)) :
    Store.maxKey ((j, w) :: q :: qs) = max j (Store.maxKey (q :: qs)) := rfl

theorem Store.lookup_insert_self (s : Store) (k : Int) (v : Item) :
    Store.lookup (Store.insert s k v) k = some v := by
  induction s with
  | nil => simp [Store.insert, Store.lookup]
  | cons p rest ih =>
      obtain ⟨j, w⟩ := p
      by_cases h : j = k
      · simp [Store.insert, h, Store.lookup]
      · simp [Store.insert, h, Store.lookup, ih]

theorem Store.insert_insert (s : Store) (k : Int) (v : Item) :
    Store.insert (Store.insert s k v) k v = Store.insert s k v := by
  induction s with
  | nil => simp [Store.insert]
  | cons p rest ih =>
      obtain ⟨j, w⟩ := p
      by_cases h : j = k
      · simp [Store.insert, h]
      · simp [Store.insert, h, ih]

theorem Store.mem_keys_insert {s : Store} {k j : Int} {v : Item} :
    j ∈ Store.keys (Store.insert s k v) ↔ j = k ∨ j ∈ Store.keys s := by
  induction s with
  | nil =>
      simp [Store.insert, Store.keys_cons, Store.keys_nil]
  | cons p rest ih =>
      obtain ⟨i, w⟩ := p
      by_cases h : i = k
      · subst h
        simp [Store.insert, Store.keys_cons]
      · simp [Store.insert, h, Store.keys_cons] at ih ⊢
        tauto

theorem Store.lookup_mem_keys {s : Store} {k : Int} {v : Item}
    (h : Store.lookup s k = some v) : k ∈ Store.keys s := by
  induction s with
  | nil => simp [Store.lookup] at h
  | cons p rest ih =>
      obtain ⟨j, w⟩ := p
      by_cases hj : j = k
      · subst hj
        simp [Store.keys_cons]
      · simp only [Store.lookup, if_neg hj] at h
        simp only [Store.keys_cons, List.mem_cons]
        exact Or.inr (ih h)

theorem Store.mem_keys_erase {s : Store} {k j : Int}
    (h : j ∈ Store.keys (Store.erase s k)) : j ∈ Store.keys s := by
  induction s with
  | nil => simpa [Store.erase] using h
  | cons p rest ih =>
      obtain ⟨i, w⟩ := p
      by_cases hi : i = k
      · simp only [Store.erase, if_pos hi] at h
        simp only [Store.keys_cons, List.mem_cons]
        exact Or.inr h
      · simp only [Store.erase, if_neg hi, Store.keys_cons, List.mem_cons] at h ⊢
        tauto

theorem Store.le_maxKey : ∀ {s : Store} {k : Int},
    k ∈ Store.keys s → k ≤ Store.maxKey s := by
  intro s
  induction s with
  | nil => intro k h; simp [Store.keys_nil] at h
  | cons p rest ih =>
      intro k h
      obtain ⟨j, w⟩ := p
      simp only [Store.keys_cons, List.mem_cons] at h
      cases rest with
      | nil =>
          rcases h with h | h
          · rw [Store.maxKey_single]; exact le_of_eq h
          · simp [Store.keys_nil] at h
      | cons q qs =>
          rw [Store.maxKey_cons_cons]
          rcases h with h | h
          · exact le_max_of_le_left (le_of_eq h)
          · exact le_max_of_le_right (ih h)

theorem Store.lookup_maxKey_succ (s : Store) :
    Store.lookup s (Store.maxKey s + 1) = none := by
  cases h : Store.lookup s (Store.maxKey s + 1) with
  | none => rfl
  | some v =>
      have h1 : Store.maxKey s + 1 ∈ Store.keys s := Store.lookup_mem_keys h
      have h2 := Store.le_maxKey h1
      omega

theorem Store.maxKey_nonneg_of_pos {s : Store} (h : ∀ k ∈ Store.keys s, 0 < k) :
    0 ≤ Store.maxKey s := by
  cases s with
  | nil => simp [Store.maxKey]
  | cons p rest =>
      obtain ⟨j, w⟩ := p
      have hj : 0 < j := h j (by simp [Store.keys_cons])
      cases rest with
      | nil =>
          rw [Store.maxKey_single]
          omega
      | cons q qs =>
          rw [Store.maxKey_cons_cons]
          exact le_max_of_le_left hj.le

theorem createSeq_ids_spec (its : List Item) :
    ∀ s : Store, List.Chain' (· < ·) (createSeq its s).1
      ∧ ∀ i ∈ (createSeq its s).1, Store.maxKey s < i := by
  induction its with
  | nil => intro s; simp [createSeq]
  | cons it rest ih =>
      intro s
      have hmem : Store.maxKey s + 1 ∈ Store.keys (create_core it s).2 := by
        simp [create_core, Store.mem_keys_insert]
      have hle : Store.maxKey s + 1 ≤ Store.maxKey (create_core it s).2 :=
        Store.le_maxKey hmem
      obtain ⟨hchain, hgt⟩ := ih (create_core it s).2
      have hids : (createSeq (it :: rest) s).1
          = (Store.maxKey s + 1) :: (createSeq rest (create_core it s).2).1 := rfl
      rw [hids]
      constructor
      · rw [List.chain'_cons']
        refine ⟨?_, hchain⟩
        intro b hb
        have hbmem : b ∈ (createSeq rest (create_core it s).2).1 :=
          List.mem_of_mem_head? hb
        have := hgt b hbmem
        omega
      · intro i hi
        rcases List.mem_cons.mp hi with hi | hi
        · omega
        · have := hgt i hi
          omega

theorem createSeq_pairwise (its : List Item) (s : Store) :
    List.Pairwise (· ≠ ·) (createSeq its s).1 := by
  have hchain := (createSeq_ids_spec its s).1
  have hp : List.Pairwise (· < ·) (createSeq its s).1 :=
    List.chain'_iff_pairwise.mp hchain
  exact hp.imp (fun hab => ne_of_lt hab)

/-- A stored item with every optional field populated where it matters:
`{"name": "Pen", "description": "blue", "price": 1.5}`. -/
def bluePen : Item := ⟨some "Pen", some "blue", some 1.5, none⟩

/-- PATCH body `{}`: every field omitted. -/
def emptyPatch : ItemUpdate := ⟨none, none, none, none⟩

/-- PATCH body `{"description": null}`. -/
def nullDescPatch : ItemUpdate := ⟨none, some none, none, none⟩

/-- PATCH body `{"name": null}`. -/
def nullNamePatch : ItemUpdate := ⟨some none, none, none, none⟩

/-- PATCH body `{"price": null}`. -/
def nullPricePatch : ItemUpdate := ⟨none, none, some none, none⟩

/-- PATCH body `{"price": 2.0}`. -/
def price2Patch : ItemUpdate := ⟨none, none, some (some 2), none⟩

/-- C1: for every stored Item `i` (found under `id`) and ItemUpdate `u`,
PATCH's merge takes, for each of the four fields independently, the patch's
value when the patch supplies the field and the stored value otherwise; the
merged item is stored under the same identifier and returned with
status 200. -/
theorem claim_C1_patch_merge (s : Store) (id : Int) (i : Item) (u : ItemUpdate)
    (h : Store.lookup s id = some i) :
    (∀ v, u.name = some v → (Item.copyUpdate i u).name = v) ∧
    (u.name = none → (Item.copyUpdate i u).name = i.name) ∧
    (∀ v, u.description = some v → (Item.copyUpdate i u).description = v) ∧
    (u.description = none → (Item.copyUpdate i u).description = i.description) ∧
    (∀ v, u.price = some v → (Item.copyUpdate i u).price = v) ∧
    (u.price = none → (Item.copyUpdate i u).price = i.price) ∧
    (∀ v, u.tax = some v → (Item.copyUpdate i u).tax = v) ∧
    (u.tax = none → (Item.copyUpdate i u).tax = i.tax) ∧
    update_item id u s =
      (.itemBody 200 id (Item.copyUpdate i u),
       Store.insert s id (Item.copyUpdate i u)) ∧
    Store.lookup (update_item id u s).2 id = some (Item.copyUpdate i u) := by
  have hu : update_item id u s =
      (.itemBody 200 id (Item.copyUpdate i u),
       Store.insert s id (Item.copyUpdate i u)) := by
    simp [update_item, h]
  refine ⟨?_, ?_, ?_, ?_, ?_, ?_, ?_, ?_, hu, ?_⟩
  · intro v hv; simp [Item.copyUpdate, hv]
  · intro hv; simp [Item.copyUpdate, hv]
  · intro v hv; simp [Item.copyUpdate, hv]
  · intro hv; simp [Item.copyUpdate, hv]
  · intro v hv; simp [Item.copyUpdate, hv]
  · intro hv; simp [Item.copyUpdate, hv]
  · intro v hv; simp [Item.copyUpdate, hv]
  · intro hv; simp [Item.copyUpdate, hv]
  · rw [hu]
    exact Store.lookup_insert_self s id (Item.copyUpdate i u)

/-- Witness for C1: the stored Pen at id 1 patched with `{"price": 2.0}`. -/
theorem claim_C1_patch_merge_witness :
    Store.lookup [(1, penItem)] 1 = some penItem ∧
    ((∀ v, price2Patch.name = some v →
        (Item.copyUpdate penItem price2Patch).name = v) ∧
    (price2Patch.name = none →
      (Item.copyUpdate penItem price2Patch).name = penItem.name) ∧
    (∀ v, price2Patch.description = some v →
        (Item.copyUpdate penItem price2Patch).description = v) ∧
    (price2Patch.description = none →
      (Item.copyUpdate penItem price2Patch).description = penItem.description) ∧
    (∀ v, price2Patch.price = some v →
        (Item.copyUpdate penItem price2Patch).price = v) ∧
    (price2Patch.price = none →
      (Item.copyUpdate penItem price2Patch).price = penItem.price) ∧
    (∀ v, price2Patch.tax = some v →
        (Item.copyUpdate penItem price2Patch).tax = v) ∧
    (price2Patch.tax = none →
      (Item.copyUpdate penItem price2Patch).tax = penItem.tax) ∧
    update_item 1 price2Patch [(1, penItem)] =
      (.itemBody 200 1 (Item.copyUpdate penItem price2Patch),
       Store.insert [(1, penItem)] 1 (Item.copyUpdate penItem price2Patch)) ∧
    Store.lookup (update_item 1 price2Patch [(1, penItem)]).2 1
      = some (Item.copyUpdate penItem price2Patch)) :=
  ⟨rfl, claim_C1_patch_merge [(1, penItem)] 1 penItem price2Patch rfl⟩

/-- C2: POST assigns `max(keys, default 0) + 1`, a fresh id absent from the
pre-state store, inserts the item there and returns it with 201; ids of any
run of consecutive creates are pairwise distinct; posting Pen on the empty
store yields item_id 1 with null description and tax. -/
theorem claim_C2_create (item : Item) (s : Store) (its : List Item) :
    create_item item s =
      (.itemBody 201 (Store.maxKey s + 1) item,
       Store.insert s (Store.maxKey s + 1) item) ∧
    Store.lookup s (Store.maxKey s + 1) = none ∧
    Store.lookup (create_item item s).2 (Store.maxKey s + 1) = some item ∧
    List.Pairwise (· ≠ ·) (createSeq its s).1 ∧
    create_item penItem [] = (.itemBody 201 1 penItem, [(1, penItem)]) ∧
    penItem.description = none ∧ penItem.tax = none := by
  refine ⟨rfl, Store.lookup_maxKey_succ s, ?_, createSeq_pairwise its s,
    rfl, rfl, rfl⟩
  exact Store.lookup_insert_self s (Store.maxKey s + 1) item

/-- C3: PATCH, DELETE and HEAD on an absent identifier all answer 404 and
leave the store exactly as it was. -/
theorem claim_C3_missing_404 (s : Store) (id : Int) (u : ItemUpdate)
    (h : Store.lookup s id = none) :
    update_item id u s = (.empty 404, s) ∧
    delete_item id s = (.empty 404, s) ∧
    head_item id s = (.empty 404, s) := by
  have hc : Store.contains s id = false := by simp [Store.contains, h]
  refine ⟨?_, ?_, ?_⟩ <;>
    simp [update_item, delete_item, head_item, h, hc]

/-- Witness for C3: id 2 is absent from the one-entry store. -/
theorem claim_C3_missing_404_witness :
    Store.lookup [(1, penItem)] 2 = none ∧
    (update_item 2 emptyPatch [(1, penItem)] = (.empty 404, [(1, penItem)]) ∧
    delete_item 2 [(1, penItem)] = (.empty 404, [(1, penItem)]) ∧
    head_item 2 [(1, penItem)] = (.empty 404, [(1, penItem)])) :=
  ⟨rfl, claim_C3_missing_404 [(1, penItem)] 2 emptyPatch rfl⟩

/-- C4: GET always succeeds with status 200, returning the stored item when
present and null otherwise, and never mutates the store. -/
theorem claim_C4_get_total (id : Int) (q : Option String) (s : Store) :
    read_item id q s = (.getBody id (Store.lookup s id) q, s) ∧
    (read_item id q s).1.status = 200 ∧
    (read_item id q s).2 = s :=
  ⟨rfl, rfl, rfl⟩

/-- C5 fails as stated: starting from the empty store (all keys trivially
positive), `PUT /items/0` stores the body under key 0, which is not
strictly positive, and still answers 200. -/
theorem claim_C5_counterexample :
    (∀ k ∈ Store.keys ([] : Store), 0 < k) ∧
    (0 : Int) ∈ Store.keys (replace_item 0 penItem []).2 ∧
    ¬ (0 : Int) < 0 ∧
    (replace_item 0 penItem []).1.status = 200 := by
  refine ⟨?_, ?_, by omega, rfl⟩
  · intro k hk
    simp [Store.keys_nil] at hk
  · exact List.mem_singleton.mpr rfl

/-- C5 amended: strict positivity of the keys is preserved by POST, PATCH,
DELETE, GET, HEAD, and by PUT whose path id is positive — but PUT with a
non-positive id inserts that id as a key, breaking the invariant. -/
theorem claim_C5_amended (s : Store) (hs : ∀ k ∈ Store.keys s, 0 < k) :
    (∀ it, ∀ k ∈ Store.keys (create_item it s).2, 0 < k) ∧
    (∀ id u, ∀ k ∈ Store.keys (update_item id u s).2, 0 < k) ∧
    (∀ id, ∀ k ∈ Store.keys (delete_item id s).2, 0 < k) ∧
    (∀ id q, ∀ k ∈ Store.keys (read_item id q s).2, 0 < k) ∧
    (∀ id, ∀ k ∈ Store.keys (head_item id s).2, 0 < k) ∧
    (∀ id it, 0 < id → ∀ k ∈ Store.keys (replace_item id it s).2, 0 < k) ∧
    (∀ id it, id ≤ 0 → id ∈ Store.keys (replace_item id it s).2) := by
  have hmax := Store.maxKey_nonneg_of_pos hs
  refine ⟨?_, ?_, ?_, ?_, ?_, ?_, ?_⟩
  · intro it k hk
    rcases Store.mem_keys_insert.mp hk with hk | hk
    · omega
    · exact hs k hk
  · intro id u k hk
    cases hl : Store.lookup s id with
    | none =>
        rw [show (update_item id u s).2 = s by simp [update_item, hl]] at hk
        exact hs k hk
    | some stored =>
        rw [show (update_item id u s).2
            = Store.insert s id (Item.copyUpdate stored u) by
          simp [update_item, hl]] at hk
        rcases Store.mem_keys_insert.mp hk with hk | hk
        · subst hk
          exact hs k (Store.lookup_mem_keys hl)
        · exact hs k hk
  · intro id k hk
    by_cases hc : Store.contains s id
    · rw [show (delete_item id s).2 = Store.erase s id by
        simp [delete_item, hc]] at hk
      exact hs k (Store.mem_keys_erase hk)
    · rw [show (delete_item id s).2 = s by simp [delete_item, hc]] at hk
      exact hs k hk
  · intro id q k hk
    exact hs k hk
  · intro id k hk
    by_cases hc : Store.contains s id
    · rw [show (head_item id s).2 = s by simp [head_item, hc]] at hk
      exact hs k hk
    · rw [show (head_item id s).2 = s by simp [head_item, hc]] at hk
      exact hs k hk
  · intro id it hid k hk
    rcases Store.mem_keys_insert.mp hk with hk | hk
    · omega
    · exact hs k hk
  · intro id it _
    exact Store.mem_keys_insert.mpr (Or.inl rfl)

/-- Witness for C5's amended statement: the one-entry store with key 1. -/
theorem claim_C5_amended_witness :
    (∀ k ∈ Store.keys [(1, penItem)], 0 < k) ∧
    ((∀ it, ∀ k ∈ Store.keys (create_item it [(1, penItem)]).2, 0 < k) ∧
    (∀ id u, ∀ k ∈ Store.keys (update_item id u [(1, penItem)]).2, 0 < k) ∧
    (∀ id, ∀ k ∈ Store.keys (delete_item id [(1, penItem)]).2, 0 < k) ∧
    (∀ id q, ∀ k ∈ Store.keys (read_item id q [(1, penItem)]).2, 0 < k) ∧
    (∀ id, ∀ k ∈ Store.keys (head_item id [(1, penItem)]).2, 0 < k) ∧
    (∀ id it, 0 < id →
      ∀ k ∈ Store.keys (replace_item id it [(1, penItem)]).2, 0 < k) ∧
    (∀ id it, id ≤ 0 → id ∈ Store.keys (replace_item id it [(1, penItem)]).2)) :=
  ⟨by decide, claim_C5_amended [(1, penItem)] (by decide)⟩

/-- C6 fails as stated: on the stored item `{"name": "Pen", "description":
"blue", "price": 1.5}`, PATCH with body `{"description": null}` and PATCH
with body `{}` leave different stores (the former nulls the description,
the latter keeps it): explicit null and omission are not conflated. -/
theorem claim_C6_counterexample :
    (update_item 1 nullDescPatch [(1, bluePen)]).2
      ≠ (update_item 1 emptyPatch [(1, bluePen)]).2 := by
  decide

/-- C6 amended: `dict(exclude_unset=True)` keeps explicitly-null fields, so
PATCH distinguishes them from omitted ones — for each field, an explicit
null in the body nulls the stored field while an omitted field keeps the
stored value; the merge result is stored under the same id. -/
theorem claim_C6_amended (s : Store) (id : Int) (i : Item) (u : ItemUpdate)
    (h : Store.lookup s id = some i) :
    (u.name = some none → (Item.copyUpdate i u).name = none) ∧
    (u.name = none → (Item.copyUpdate i u).name = i.name) ∧
    (u.description = some none → (Item.copyUpdate i u).description = none) ∧
    (u.description = none → (Item.copyUpdate i u).description = i.description) ∧
    (u.price = some none → (Item.copyUpdate i u).price = none) ∧
    (u.price = none → (Item.copyUpdate i u).price = i.price) ∧
    (u.tax = some none → (Item.copyUpdate i u).tax = none) ∧
    (u.tax = none → (Item.copyUpdate i u).tax = i.tax) ∧
    Store.lookup (update_item id u s).2 id = some (Item.copyUpdate i u) := by
  refine ⟨?_, ?_, ?_, ?_, ?_, ?_, ?_, ?_, ?_⟩
  · intro hv; simp [Item.copyUpdate, hv]
  · intro hv; simp [Item.copyUpdate, hv]
  · intro hv; simp [Item.copyUpdate, hv]
  · intro hv; simp [Item.copyUpdate, hv]
  · intro hv; simp [Item.copyUpdate, hv]
  · intro hv; simp [Item.copyUpdate, hv]
  · intro hv; simp [Item.copyUpdate, hv]
  · intro hv; simp [Item.copyUpdate, hv]
  · rw [show (update_item id u s).2 = Store.insert s id (Item.copyUpdate i u) by
      simp [update_item, h]]
    exact Store.lookup_insert_self s id (Item.copyUpdate i u)

/-- Witness for C6's amended statement: the blue pen patched with
`{"description": null}`. -/
theorem claim_C6_amended_witness :
    Store.lookup [(1, bluePen)] 1 = some bluePen ∧
    ((nullDescPatch.name = some none →
        (Item.copyUpdate bluePen nullDescPatch).name = none) ∧
    (nullDescPatch.name = none →
      (Item.copyUpdate bluePen nullDescPatch).name = bluePen.name) ∧
    (nullDescPatch.description = some none →
      (Item.copyUpdate bluePen nullDescPatch).description = none) ∧
    (nullDescPatch.description = none →
      (Item.copyUpdate bluePen nullDescPatch).description = bluePen.description) ∧
    (nullDescPatch.price = some none →
      (Item.copyUpdate bluePen nullDescPatch).price = none) ∧
    (nullDescPatch.price = none →
      (Item.copyUpdate bluePen nullDescPatch).price = bluePen.price) ∧
    (nullDescPatch.tax = some none →
      (Item.copyUpdate bluePen nullDescPatch).tax = none) ∧
    (nullDescPatch.tax = none →
      (Item.copyUpdate bluePen nullDescPatch).tax = bluePen.tax) ∧
    Store.lookup (update_item 1 nullDescPatch [(1, bluePen)]).2 1
      = some (Item.copyUpdate bluePen nullDescPatch)) :=
  ⟨rfl, claim_C6_amended [(1, bluePen)] 1 bluePen nullDescPatch rfl⟩

/-- One application of `PUT /items/{id}` as a store transformer. -/
def putStep (id : Int) (item : Item) (s : Store) : Store :=
  (replace_item id item s).2

/-- C7: PUT is total and idempotent — repeating the same PUT `n + 1` times
equals performing it once, the body ends up stored at the id, and the
response is 200 regardless of prior existence. -/
theorem claim_C7_put_idempotent (id : Int) (item : Item) (s : Store) (n : Nat) :
    (putStep id item)^[n + 1] s = putStep id item s ∧
    Store.lookup ((putStep id item)^[n + 1] s) id = some item ∧
    (replace_item id item s).1 = .itemBody 200 id item ∧
    (replace_item id item s).1.status = 200 := by
  have hidem : ∀ m : Nat, (putStep id item)^[m + 1] s = putStep id item s := by
    intro m
    induction m with
    | zero => simp
    | succ m ih =>
        rw [Function.iterate_succ_apply', ih]
        show Store.insert (Store.insert s id item) id item
          = Store.insert s id item
        exact Store.insert_insert s id item
  refine ⟨hidem n, ?_, rfl, rfl⟩
  rw [hidem n]
  exact Store.lookup_insert_self s id item

/-- C8: login answers 200 `{"status": "success"}` exactly for the literal
pair ("admin", "secret"), 401 "Invalid credentials" otherwise, and neither
reads nor writes the store. -/
theorem claim_C8_login (u p : String) (s t : Store) :
    ((login u p s).1 = .loginOk ↔ (u = "admin" ∧ p = "secret")) ∧
    (¬ (u = "admin" ∧ p = "secret") →
      (login u p s).1 = .unauthorized "Invalid credentials" ∧
      (login u p s).1.status = 401) ∧
    (u = "admin" ∧ p = "secret" → (login u p s).1.status = 200) ∧
    (login u p s).2 = s ∧
    (login u p s).1 = (login u p t).1 := by
  by_cases h : u = "admin" ∧ p = "secret" <;>
    simp [login, h, Resp.status]

/-- Witness for C8: the correct credential pair on two different stores. -/
theorem claim_C8_login_witness :
    ((login "admin" "secret" []).1 = .loginOk ↔
      ("admin" = "admin" ∧ "secret" = "secret")) ∧
    (¬ ("admin" = "admin" ∧ "secret" = "secret") →
      (login "admin" "secret" []).1 = .unauthorized "Invalid credentials" ∧
      (login "admin" "secret" []).1.status = 401) ∧
    ("admin" = "admin" ∧ "secret" = "secret" →
      (login "admin" "secret" []).1.status = 200) ∧
    (login "admin" "secret" []).2 = [] ∧
    (login "admin" "secret" []).1 = (login "admin" "secret" [(1, penItem)]).1 :=
  claim_C8_login "admin" "secret" [] [(1, penItem)]

/-- C9: PATCH with a required field explicitly null stores and returns an
item whose `name` (resp. `price`) is null, so the store can hold an entry
violating the Item schema (`Item.valid`). -/
theorem claim_C9_null_required (s : Store) (id : Int) (i : Item)
    (h : Store.lookup s id = some i) :
    (update_item id nullNamePatch s).1
      = .itemBody 200 id (Item.copyUpdate i nullNamePatch) ∧
    Store.lookup (update_item id nullNamePatch s).2 id
      = some (Item.copyUpdate i nullNamePatch) ∧
    (Item.copyUpdate i nullNamePatch).name = none ∧
    ¬ (Item.copyUpdate i nullNamePatch).valid ∧
    Store.lookup (update_item id nullPricePatch s).2 id
      = some (Item.copyUpdate i nullPricePatch) ∧
    (Item.copyUpdate i nullPricePatch).price = none ∧
    ¬ (Item.copyUpdate i nullPricePatch).valid := by
  have h1 : update_item id nullNamePatch s =
      (.itemBody 200 id (Item.copyUpdate i nullNamePatch),
       Store.insert s id (Item.copyUpdate i nullNamePatch)) := by
    simp [update_item, h]
  have h2 : update_item id nullPricePatch s =
      (.itemBody 200 id (Item.copyUpdate i nullPricePatch),
       Store.insert s id (Item.copyUpdate i nullPricePatch)) := by
    simp [update_item, h]
  refine ⟨by rw [h1], ?_, rfl, ?_, ?_, rfl, ?_⟩
  · rw [h1]
    exact Store.lookup_insert_self s id (Item.copyUpdate i nullNamePatch)
  · simp [Item.valid, Item.copyUpdate, nullNamePatch]
  · rw [h2]
    exact Store.lookup_insert_self s id (Item.copyUpdate i nullPricePatch)
  · simp [Item.valid, Item.copyUpdate, nullPricePatch]

/-- Witness for C9: nulling the required fields of the stored blue pen. -/
theorem claim_C9_null_required_witness :
    Store.lookup [(1, bluePen)] 1 = some bluePen ∧
    ((update_item 1 nullNamePatch [(1, bluePen)]).1
      = .itemBody 200 1 (Item.copyUpdate bluePen nullNamePatch) ∧
    Store.lookup (update_item 1 nullNamePatch [(1, bluePen)]).2 1
      = some (Item.copyUpdate bluePen nullNamePatch) ∧
    (Item.copyUpdate bluePen nullNamePatch).name = none ∧
    ¬ (Item.copyUpdate bluePen nullNamePatch).valid ∧
    Store.lookup (update_item 1 nullPricePatch [(1, bluePen)]).2 1
      = some (Item.copyUpdate bluePen nullPricePatch) ∧
    (Item.copyUpdate bluePen nullPricePatch).price = none ∧
    ¬ (Item.copyUpdate bluePen nullPricePatch).valid) :=
  ⟨rfl, claim_C9_null_required [(1, bluePen)] 1 bluePen rfl⟩

/-- The store {1 ↦ pen, 3 ↦ pen}: three POSTs followed by DELETE /items/2,
leaving a gap below the maximum key. -/
def gapStore : Store :=
  (delete_item 2 (createSeq [penItem, penItem, penItem] []).2).2

/-- C10 fails as stated: in `gapStore` the maximum key is 3, yet after
DELETE /items/3 the next create returns 2, not 3. -/
theorem claim_C10_counterexample :
    Store.maxKey gapStore = 3 ∧
    Store.contains gapStore 3 = true ∧
    (delete_item 3 gapStore).1 = .empty 204 ∧
    (create_core penItem (delete_item 3 gapStore).2).1 = 2 ∧
    (2 : Int) ≠ 3 := by
  refine ⟨rfl, rfl, rfl, rfl, by omega⟩

/-- C10 amended: after deleting the entry at key `m`, the next create
returns `max(remaining keys, default 0) + 1`, which coincides with `m`
exactly when `m` was one more than the remaining maximum; identifiers are
reused (create → 1, delete 1, create → 1 again), so create-id distinctness
does not survive interleaved deletes. -/
theorem claim_C10_amended (s : Store) (m : Int) (item : Item)
    (h : Store.contains s m = true) :
    (delete_item m s).2 = Store.erase s m ∧
    (create_core item (delete_item m s).2).1
      = Store.maxKey (Store.erase s m) + 1 ∧
    ((create_core item (delete_item m s).2).1 = m ↔
      m = Store.maxKey (Store.erase s m) + 1) ∧
    (createSeq [penItem] []).1 = [1] ∧
    (delete_item 1 (createSeq [penItem] []).2).1 = .empty 204 ∧
    (createSeq [penItem] (delete_item 1 (createSeq [penItem] []).2).2).1
      = [1] := by
  have hd : (delete_item m s).2 = Store.erase s m := by
    simp [delete_item, h]
  refine ⟨hd, ?_, ?_, rfl, rfl, rfl⟩
  · rw [hd]
    rfl
  · rw [hd]
    show Store.maxKey (Store.erase s m) + 1 = m ↔
      m = Store.maxKey (Store.erase s m) + 1
    exact eq_comm

/-- Witness for C10's amended statement: deleting the single entry 1. -/
theorem claim_C10_amended_witness :
    Store.contains [(1, penItem)] 1 = true ∧
    ((delete_item 1 [(1, penItem)]).2 = Store.erase [(1, penItem)] 1 ∧
    (create_core penItem (delete_item 1 [(1, penItem)]).2).1
      = Store.maxKey (Store.erase [(1, penItem)] 1) + 1 ∧
    ((create_core penItem (delete_item 1 [(1, penItem)]).2).1 = 1 ↔
      (1 : Int) = Store.maxKey (Store.erase [(1, penItem)] 1) + 1) ∧
    (createSeq [penItem] []).1 = [1] ∧
    (delete_item 1 (createSeq [penItem] []).2).1 = .empty 204 ∧
    (createSeq [penItem] (delete_item 1 (createSeq [penItem] []).2).2).1
      = [1]) :=
  ⟨rfl, claim_C10_amended [(1, penItem)] 1 penItem rfl⟩

end WebApp
